import Mathlib

/-!
Verification of the dexlite-core repository (Go): a price-polling service
consisting of the HyperLiquid price-source adapter (`services` package,
`GetPrice`), the price fetch loop (`workers.PriceFetcher.fetchPrices`), the
retention loop (`workers.CleanupWorker.cleanup`), and the HTTP query handler
(`handlers.PriceHandler.GetPriceComparison`) over the `models.CoinPrice` table.

Modelling conventions:
* A JSON byte payload is embedded as an abstract `Json` value; `Json.render`
  produces the textual form the Go code interpolates into error messages
  (ASCII payloads, minimal escaping — all payloads of interest are ASCII).
* Go's `map[string]string` / struct unmarshalling is embedded by total
  functions over `Json` returning `Option` (with `none` for a decode error),
  mirroring `encoding/json` semantics on objects: unknown fields ignored,
  duplicate keys resolved last-wins, `null` decodes as the zero value, type
  mismatches are errors.  Map iteration order, which Go randomises, is fixed
  to key-insertion order.
* `strconv.ParseFloat` is embedded as an exact decimal parser into `ℚ`
  (sign, digits, optional fraction, optional exponent); IEEE-754 rounding,
  hex floats, underscores and Inf/NaN are outside the fragment the program
  exercises, so prices are exact rationals.
* Timestamps are `Int` seconds; `time.Now().AddDate(0,0,-2)` is `now - 2*86400`
  and the 24-hour query window is `24*3600` seconds.
* The database table is a `List CoinPrice`; GORM's soft delete (`DeletedAt`)
  is the `deletedAt : Option Int` field, and its default scope (rows with a
  non-null `deleted_at` are invisible) appears explicitly in each query's
  predicate, exactly as the generated SQL would.
-/

/-- Abstract JSON values, standing for the upstream response payload bytes. -/
inductive Json where
  | null
  | bool (b : Bool)
  | num (q : ℚ)
  | str (s : String)
  | arr (elems : List Json)
  | obj (fields : List (String × Json))

/-- Textual form of a JSON number (only integral numbers appear in the
payloads this development evaluates). -/
def renderNum (q : ℚ) : String :=
  if q.den = 1 then toString q.num else toString q.num ++ "/" ++ toString q.den

mutual

/-- Serialisation of a `Json` value: the `string(bodyBytes)` that the Go code
interpolates into its error messages. -/
def Json.render : Json → String
  | .null => "null"
  | .bool true => "true"
  | .bool false => "false"
  | .num q => renderNum q
  | .str s => "\"" ++ s ++ "\""
  | .arr xs => "[" ++ Json.renderArr xs ++ "]"
  | .obj fs => "\x7b" ++ Json.renderObj fs ++ "\x7d"

def Json.renderArr : List Json → String
  | [] => ""
  | [x] => x.render
  | x :: xs => x.render ++ "," ++ Json.renderArr xs

def Json.renderObj : List (String × Json) → String
  | [] => ""
  | [(k, v)] => "\"" ++ k ++ "\":" ++ v.render
  | (k, v) :: fs => "\"" ++ k ++ "\":" ++ v.render ++ "," ++ Json.renderObj fs

end

/-- Exact (first-match) association-list lookup: Go map indexing `m[key]`
over the normalised field list. -/
def lookupA {α : Type} : List (String × α) → String → Option α
  | [], _ => none
  | (k, v) :: rest, key => if k == key then some v else lookupA rest key

/-- One Go map insert: a later duplicate key overwrites the earlier value
(`encoding/json` object decoding is last-wins). -/
def insertLW {α : Type} (l : List (String × α)) (k : String) (v : α) :
    List (String × α) :=
  if l.any (fun p => p.1 == k) then
    l.map (fun p => if p.1 == k then (p.1, v) else p)
  else l ++ [(k, v)]

/-- Normalise a JSON object's field list into the Go map it decodes to:
unique keys, last duplicate wins, insertion order retained. -/
def normObj {α : Type} (fields : List (String × α)) : List (String × α) :=
  fields.foldl (fun acc kv => insertLW acc kv.1 kv.2) []

/-- Accumulate a decimal digit string into a `Nat` (`none` on a non-digit);
the empty list accumulates to `0` and is rejected by the callers that require
at least one digit. -/
def digitsVal (cs : List Char) : Option Nat :=
  cs.foldl (fun acc c =>
    match acc with
    | none => none
    | some n => if c.isDigit then some (10 * n + (c.toNat - 48)) else none)
    (some 0)

/-- Split a character list at the first `.` (fraction separator). -/
def splitDot : List Char → List Char × Option (List Char)
  | [] => ([], none)
  | c :: rest =>
    if c == '.' then ([], some rest)
    else
      let p := splitDot rest
      (c :: p.1, p.2)

/-- Split a character list at the first `e`/`E` (exponent separator). -/
def splitExp : List Char → List Char × Option (List Char)
  | [] => ([], none)
  | c :: rest =>
    if c == 'e' || c == 'E' then ([], some rest)
    else
      let p := splitExp rest
      (c :: p.1, p.2)

/-- Strip an optional leading sign; `true` means negative. -/
def parseSign : List Char → Bool × List Char
  | '-' :: rest => (true, rest)
  | '+' :: rest => (false, rest)
  | cs => (false, cs)

/-- Scale a rational by a signed power of ten (decimal exponent). -/
def applyExp (q : ℚ) (e : Bool × Nat) : ℚ :=
  if e.1 then q / 10 ^ e.2 else q * 10 ^ e.2

/-- Model of `strconv.ParseFloat(s, 64)` on the decimal fragment, returning
the exact rational value of the decimal literal (no binary rounding). -/
def parseFloat (s : String) : Option ℚ :=
  let sgn := parseSign s.toList
  let me := splitExp sgn.2
  let ipfp := splitDot me.1
  let fp := ipfp.2.getD []
  if ipfp.1 ++ fp = [] then none
  else
    match digitsVal (ipfp.1 ++ fp) with
    | none => none
    | some n =>
      let base : ℚ := (n : ℚ) / 10 ^ fp.length
      let signed : ℚ := if sgn.1 then -base else base
      match me.2 with
      | none => some signed
      | some ecs =>
        let esgn := parseSign ecs
        if esgn.2 = [] then none
        else
          match digitsVal esgn.2 with
          | none => none
          | some e => some (applyExp signed (esgn.1, e))

/-! ## The HyperLiquid adapter (`services.HyperLiquidClient.GetPrice`)

The unmarshal attempts below embed the three `json.Unmarshal` calls of
`GetPrice`: into `map[string]string` (Format 1), into
`WrappedAllMidsResponse` (Format 2) and into `AllMidsResponse` (Format 3),
plus the diagnostic decode into `map[string]interface\x7b\x7d`. -/

/-- Decode an (already normalised) object field list as `map[string]string`
entries: every value must be a string (`null` decodes to `""`). -/
def strMapEntries : List (String × Json) → Option (List (String × String))
  | [] => some []
  | (k, Json.str s) :: rest => (strMapEntries rest).map (fun m => (k, s) :: m)
  | (k, Json.null) :: rest => (strMapEntries rest).map (fun m => (k, "") :: m)
  | _ => none

/-- `json.Unmarshal(bodyBytes, &directMids)` with `directMids : map[string]string`
(Format 1): succeeds on an object of string values (or `null`, which leaves
the map nil, i.e. empty). -/
def asStringMap : Json → Option (List (String × String))
  | Json.obj fields => strMapEntries (normObj fields)
  | Json.null => some []
  | _ => none

/-- Decode an optional struct field expected to hold a `map[string]string`:
`none` result component = Go nil map (field absent or `null`). -/
def decodeStrMapField : Option Json → Option (Option (List (String × String)))
  | none => some none
  | some Json.null => some none
  | some (Json.obj fs) => (strMapEntries (normObj fs)).map some
  | some _ => none

/-- `json.Unmarshal` into `WrappedAllMidsResponse` (Format 2): returns
`Data.Mids` (`some none` = decode succeeded with a nil `Mids`). -/
def unmarshalWrapped : Json → Option (Option (List (String × String)))
  | Json.null => some none
  | Json.obj fields =>
    match lookupA (normObj fields) "data" with
    | none => some none
    | some Json.null => some none
    | some (Json.obj dfields) => decodeStrMapField (lookupA (normObj dfields) "mids")
    | some _ => none
  | _ => none

/-- A struct field expected to decode into a Go `string`: absent, `null` or a
JSON string. -/
def strOrNull : Option Json → Bool
  | none => true
  | some Json.null => true
  | some (Json.str _) => true
  | some _ => false

/-- A struct field expected to decode into `[]string`. -/
def strArrOrNull : Option Json → Bool
  | none => true
  | some Json.null => true
  | some (Json.arr xs) =>
    xs.all (fun j => match j with | Json.str _ => true | _ => false)
  | some _ => false

/-- A struct field expected to decode into a Go `int`: a JSON number with no
fractional part (a fraction is an `encoding/json` error). -/
def intOrNull : Option Json → Bool
  | none => true
  | some Json.null => true
  | some (Json.num q) => q.den == 1
  | some _ => false

/-- Decode one `PerpInfo` value; all string/array fields are type-checked as
`encoding/json` would, and the result is the only field `GetPrice` reads,
`MidPx` (zero value `""` when absent). -/
def decodePerp : Json → Option String
  | Json.null => some ""
  | Json.obj fs =>
    let n := normObj fs
    if strOrNull (lookupA n "funding") && strArrOrNull (lookupA n "impactPxs") &&
        strOrNull (lookupA n "markPx") && strOrNull (lookupA n "openInterest") &&
        strOrNull (lookupA n "oraclePx") && strArrOrNull (lookupA n "premiums") &&
        strOrNull (lookupA n "volume24h") then
      match lookupA n "midPx" with
      | none => some ""
      | some Json.null => some ""
      | some (Json.str s) => some s
      | some _ => none
    else none
  | _ => none

/-- Decode object fields as `map[string]PerpInfo` entries, keeping each
entry's `MidPx`. -/
def perpEntries : List (String × Json) → Option (List (String × String))
  | [] => some []
  | (k, v) :: rest =>
    match decodePerp v with
    | some mid => (perpEntries rest).map (fun m => (k, mid) :: m)
    | none => none

/-- A struct field expected to decode into `map[string]PerpInfo`. -/
def decodePerpMapField : Option Json → Option (Option (List (String × String)))
  | none => some none
  | some Json.null => some none
  | some (Json.obj fs) => (perpEntries (normObj fs)).map some
  | some _ => none

/-- Type-check one `UniverseItem` (`name string`, `szDec int`). -/
def universeItemOk : Json → Bool
  | Json.null => true
  | Json.obj fs =>
    strOrNull (lookupA (normObj fs) "name") && intOrNull (lookupA (normObj fs) "szDec")
  | _ => false

/-- Type-check the `Meta` struct field (`universe []UniverseItem`). -/
def metaOk : Option Json → Bool
  | none => true
  | some Json.null => true
  | some (Json.obj fs) =>
    match lookupA (normObj fs) "universe" with
    | none => true
    | some Json.null => true
    | some (Json.arr xs) => xs.all universeItemOk
    | some _ => false
  | some _ => false

/-- `json.Unmarshal` into `AllMidsResponse` (Format 3): returns
`(Mids, Data)`, each `none` when the corresponding map stays nil; `Data` is
reduced to the per-symbol `MidPx` strings. -/
def unmarshalAllMids :
    Json → Option (Option (List (String × String)) × Option (List (String × String)))
  | Json.null => some (none, none)
  | Json.obj fields =>
    let nf := normObj fields
    match decodeStrMapField (lookupA nf "mids"), decodePerpMapField (lookupA nf "data") with
    | some mids, some data => if metaOk (lookupA nf "meta") then some (mids, data) else none
    | _, _ => none
  | _ => none

/-- `strings.ToUpper` (character-wise upper-casing; the symbols in play are
ASCII). -/
def goToUpper (s : String) : String := String.mk (s.data.map Char.toUpper)

/-- Case-insensitive scan over a candidate mapping: the adapter's fallback
`strings.ToUpper(key) == coinUpper` loop. -/
def lookupCI {α : Type} (coin : String) : List (String × α) → Option α
  | [] => none
  | (k, v) :: rest =>
    if goToUpper k == goToUpper coin then some v else lookupCI coin rest

/-- Symbol lookup within one candidate mapping: exact-case map index first,
then the case-insensitive scan (the pattern repeated for every format in
`GetPrice`). -/
def findSym {α : Type} (coin : String) (m : List (String × α)) : Option α :=
  match lookupA m coin with
  | some v => some v
  | none => lookupCI coin m

/-- The price-parse step shared by every format branch: `strconv.ParseFloat`
on the located price string, a parse failure being a hard error for the call
(the Go error is `failed to parse price for <coin>: <strconv error>`; the
model keeps the fixed text). -/
def parsePrice (coin : String) (priceStr : String) : Except String ℚ :=
  match parseFloat priceStr with
  | some q => Except.ok q
  | none => Except.error ("failed to parse price for " ++ coin)

/-- One format block of `GetPrice`: if the mapping contains the symbol
(exactly or case-insensitively) the block returns (price or parse error),
otherwise the cascade continues (`none`). -/
def tryMap (coin : String) (m : List (String × String)) :
    Option (Except String ℚ) :=
  (findSym coin m).map (parsePrice coin)

/-- Format 1 block: direct `map[string]string`, guarded by
`err == nil && len(directMids) > 0`. -/
def step1 (coin : String) (body : Json) : Option (Except String ℚ) :=
  match asStringMap body with
  | some m => if 0 < m.length then tryMap coin m else none
  | none => none

/-- Format 2 block: wrapped response, guarded by
`err == nil && wrappedResponse.Data.Mids != nil`. -/
def step2 (coin : String) (body : Json) : Option (Except String ℚ) :=
  match unmarshalWrapped body with
  | some (some mids) => tryMap coin mids
  | _ => none

/-- Format 3 block: `AllMidsResponse`; 3a looks in `Mids` when non-nil, and
on a miss 3b falls through to `Data` (per-symbol `MidPx`). -/
def step3 (coin : String) (body : Json) : Option (Except String ℚ) :=
  match unmarshalAllMids body with
  | some (midsOpt, dataOpt) =>
    match (match midsOpt with
           | some mids => tryMap coin mids
           | none => none) with
    | some r => some r
    | none =>
      match dataOpt with
      | some dm => tryMap coin dm
      | none => none
  | none => none

/-- The adapter's format cascade: the three interpretation attempts in
priority order, stopping at the first block that returns. -/
def formatLookup (coin : String) (body : Json) : Option (Except String ℚ) :=
  match step1 coin body with
  | some r => some r
  | none =>
    match step2 coin body with
    | some r => some r
    | none => step3 coin body

/-- The `coin not found` diagnostic: Go formats the keys of the
`map[string]interface\x7b\x7d` decode with `%v`, i.e. space-separated inside
brackets. -/
def notFoundMsg (coin : String) (keys : List String) : String :=
  "coin " ++ coin ++ " not found in response. Available coins in response: [" ++
    String.intercalate " " keys ++ "]"

/-- The last-resort diagnostic for a payload that is not a JSON object:
`Response (first 500 chars)` of the body. -/
def lastResortMsg (coin : String) (body : Json) : String :=
  "coin " ++ coin ++ " not found. Response (first 500 chars): " ++
    (body.render.take 500)

/-- The debug tail of `GetPrice`: decode as `map[string]interface\x7b\x7d`
(succeeds exactly on objects and `null`, listing the top-level keys),
otherwise the truncated-body message. -/
def diagnose (coin : String) (body : Json) : Except String ℚ :=
  match body with
  | Json.obj fields => Except.error (notFoundMsg coin ((normObj fields).map Prod.fst))
  | Json.null => Except.error (notFoundMsg coin [])
  | _ => Except.error (lastResortMsg coin body)

/-- Interpretation of a 200-status payload: the format cascade, then the
fail-loud diagnostics. -/
def interpretBody (coin : String) (body : Json) : Except String ℚ :=
  match formatLookup coin body with
  | some r => r
  | none => diagnose coin body

/-- Model of `GetPrice`'s response handling: a non-200 HTTP status is an
immediate error carrying the status code and the response body; a 200
response's payload goes through the format cascade. -/
def getPrice (coin : String) (status : Nat) (body : Json) : Except String ℚ :=
  if status = 200 then interpretBody coin body
  else Except.error ("API returned status " ++ toString status ++ ": " ++ body.render)

/-- The price value `65000.12345678` used by the spec's adapter properties. -/
def targetPrice : ℚ := 6500012345678 / 100000000

/-! ## The observation store (`models.CoinPrice`) and workers

`ID` and `UpdatedAt` are bookkeeping columns that no modelled operation ever
reads (the handler response omits them and no query filters on them), so the
embedded row keeps the domain columns only. -/

/-- One row of the `coin_prices` table. -/
structure CoinPrice where
  coin : String
  price : ℚ
  createdAt : Int
  deletedAt : Option Int
deriving Repr, DecidableEq

/-- The row `fetchPrices` inserts for a successful fetch: GORM stamps
`CreatedAt` at insert time and leaves the soft-delete marker null. -/
def fetchRow (coin : String) (p : ℚ) (now : Int) : CoinPrice :=
  { coin := coin, price := p, createdAt := now, deletedAt := none }

/-- `workers.PriceFetcher.fetchPrices`: iterate the tracked coins in order;
an adapter error (`fetchF c = .error _`) or a failed `db.Create`
(`writeOk c p = false`) logs and `continue`s, a success appends one row. -/
def fetchPrices (fetchF : String → Except String ℚ) (writeOk : String → ℚ → Bool)
    (now : Int) : List String → List CoinPrice → List CoinPrice
  | [], store => store
  | c :: rest, store =>
    match fetchF c with
    | Except.error _ => fetchPrices fetchF writeOk now rest store
    | Except.ok p =>
      if writeOk c p then fetchPrices fetchF writeOk now rest (store ++ [fetchRow c p now])
      else fetchPrices fetchF writeOk now rest store

/-- The tracked symbols of `NewPriceFetcher`. -/
def trackedCoins : List String := ["BTC", "ETH", "SOL", "ARB", "AVAX"]

/-- The retention cutoff `time.Now().AddDate(0, 0, -2)` in seconds. -/
def retentionCutoff (now : Int) : Int := now - 2 * 86400

/-- A row the cleanup's `WHERE created_at < cutoff` (under GORM's default
`deleted_at IS NULL` scope) selects for soft deletion. -/
def eligibleForCleanup (now : Int) (r : CoinPrice) : Bool :=
  r.deletedAt.isNone && decide (r.createdAt < retentionCutoff now)

/-- The effect of the soft-delete `UPDATE` on one row: stamp the deletion
marker on a selected row, leave every other row unchanged. -/
def cleanupMark (now : Int) (r : CoinPrice) : CoinPrice :=
  if eligibleForCleanup now r then { r with deletedAt := some now } else r

/-- `workers.CleanupWorker.cleanup`: GORM `Delete` on a model with a
`DeletedAt` column issues `UPDATE coin_prices SET deleted_at = now WHERE
created_at < cutoff AND deleted_at IS NULL`; the second component is
`RowsAffected`. -/
def cleanup (now : Int) (store : List CoinPrice) : List CoinPrice × Nat :=
  (store.map (cleanupMark now), store.countP (eligibleForCleanup now))

/-! ## The query handler (`handlers.PriceHandler.GetPriceComparison`) -/

/-- One element of the handler's `prices` array. -/
structure PriceResponse where
  coin : String
  price : ℚ
  createdAt : Int
deriving Repr, DecidableEq

/-- The handler's 200 body. -/
structure PriceComparisonResponse where
  coin : String
  prices : List PriceResponse
  count : Nat
deriving Repr, DecidableEq

/-- Outcome of the handler (the pure store never fails, so the 500 branches
of the Go handler are unreachable in the model). -/
inductive HandlerStatus where
  | ok (body : PriceComparisonResponse)
  | badRequest (msg : String)
deriving Repr, DecidableEq

/-- The query window: `time.Now().Add(-24 * time.Hour)`. -/
def windowSeconds : Int := 24 * 3600

/-- The row predicate of `db.Where("coin = ? AND created_at >= ?", coin,
twentyFourHoursAgo)` under GORM's default `deleted_at IS NULL` scope. -/
def inQueryWindow (now : Int) (coin : String) (r : CoinPrice) : Bool :=
  r.deletedAt.isNone && (r.coin == coin) && decide (now - windowSeconds ≤ r.createdAt)

/-- Insert one row into a list kept in `created_at`-descending order. -/
def insertByCreatedDesc (r : CoinPrice) : List CoinPrice → List CoinPrice
  | [] => [r]
  | x :: xs =>
    if x.createdAt ≤ r.createdAt then r :: x :: xs
    else x :: insertByCreatedDesc r xs

/-- `ORDER BY created_at DESC` (ties in unspecified relative order, as in
SQL). -/
def sortByCreatedDesc (l : List CoinPrice) : List CoinPrice :=
  l.foldr insertByCreatedDesc []

/-- Projection onto the handler's response row. -/
def toPriceResponse (r : CoinPrice) : PriceResponse :=
  { coin := r.coin, price := r.price, createdAt := r.createdAt }

/-- `GetPriceComparison`: reject an empty symbol with 400 before touching the
store, otherwise run the `Count` query and the ordered `Find` query over the
same predicate and assemble the 200 body.  The second component counts the
store queries the handler executed (0 on the 400 path, `Count` + `Find` = 2
otherwise). -/
def getPriceComparison (now : Int) (store : List CoinPrice) (coin : String) :
    HandlerStatus × Nat :=
  if coin = "" then (HandlerStatus.badRequest "coin symbol is required", 0)
  else
    let matching := store.filter (inQueryWindow now coin)
    let count := matching.length
    let prices := (sortByCreatedDesc matching).map toPriceResponse
    (HandlerStatus.ok { coin := coin, prices := prices, count := count }, 2)

/-! ## Helper lemmas -/

theorem insertByCreatedDesc_perm (r : CoinPrice) (l : List CoinPrice) :
    List.Perm (insertByCreatedDesc r l) (r :: l) := by
  induction l with
  | nil => simp [insertByCreatedDesc]
  | cons x xs ih =>
    simp only [insertByCreatedDesc]
    split
    · exact List.Perm.refl _
    · exact (ih.cons x).trans (List.Perm.swap r x xs)

theorem insertByCreatedDesc_pairwise (r : CoinPrice) (l : List CoinPrice)
    (h : l.Pairwise (fun a b => b.createdAt ≤ a.createdAt)) :
    (insertByCreatedDesc r l).Pairwise (fun a b => b.createdAt ≤ a.createdAt) := by
  induction l with
  | nil => simp [insertByCreatedDesc]
  | cons x xs ih =>
    rw [List.pairwise_cons] at h
    simp only [insertByCreatedDesc]
    by_cases hle : x.createdAt ≤ r.createdAt
    · simp only [if_pos hle]
      refine List.pairwise_cons.mpr ⟨?_, List.pairwise_cons.mpr h⟩
      intro b hb
      rcases List.mem_cons.mp hb with rfl | hb2
      · exact hle
      · exact le_trans (h.1 b hb2) hle
    · simp only [if_neg hle]
      refine List.pairwise_cons.mpr ⟨?_, ih h.2⟩
      intro b hb
      rcases List.mem_cons.mp ((insertByCreatedDesc_perm r xs).mem_iff.mp hb) with rfl | hb3
      · exact le_of_not_le hle
      · exact h.1 b hb3

theorem sortByCreatedDesc_perm (l : List CoinPrice) :
    List.Perm (sortByCreatedDesc l) l := by
  induction l with
  | nil => simp [sortByCreatedDesc]
  | cons x xs ih =>
    exact (insertByCreatedDesc_perm x (sortByCreatedDesc xs)).trans (ih.cons x)

theorem sortByCreatedDesc_pairwise (l : List CoinPrice) :
    (sortByCreatedDesc l).Pairwise (fun a b => b.createdAt ≤ a.createdAt) := by
  induction l with
  | nil => simp [sortByCreatedDesc]
  | cons x xs ih => exact insertByCreatedDesc_pairwise x _ ih

theorem length_filterMap_countP {α β : Type} (f : α → Option β) (l : List α) :
    (l.filterMap f).length = l.countP (fun a => (f a).isSome) := by
  induction l with
  | nil => rfl
  | cons x xs ih =>
    cases hfx : f x <;>
      simp [List.filterMap_cons, hfx, List.countP_cons, ih]

theorem tryMap_found (coin v : String) (m : List (String × String))
    (h : lookupA m coin = some v) :
    tryMap coin m = some (parsePrice coin v) := by
  simp [tryMap, findSym, h]

theorem parse_target : parsePrice "BTC" "65000.12345678" = Except.ok targetPrice := by
  rfl

/-! ## Claims -/

/-- C1: for every upstream payload in one of the three supported shapes — a
flat symbol-to-price-string map, the same map wrapped under a `data` field,
or a payload with a top-level `mids` map and/or a symbol-to-record map whose
records carry a mid-price field — containing symbol `BTC` with value
`"65000.12345678"`, `GetPrice "BTC"` returns `65000.12345678` with no error;
the shapes are attempted in that priority order, stopping at the first one
whose mapping contains the requested symbol (final conjunct: a payload
readable both as shape 2 and as shape 3 yields shape 2's value). -/
theorem getPrice_supported_shapes_C1 :
    (∀ (fields : List (String × Json)) (m : List (String × String)),
      strMapEntries (normObj fields) = some m →
      lookupA m "BTC" = some "65000.12345678" →
      getPrice "BTC" 200 (Json.obj fields) = Except.ok targetPrice) ∧
    (∀ (fields : List (String × Json)) (m : List (String × String)),
      strMapEntries (normObj fields) = none →
      unmarshalWrapped (Json.obj fields) = some (some m) →
      lookupA m "BTC" = some "65000.12345678" →
      getPrice "BTC" 200 (Json.obj fields) = Except.ok targetPrice) ∧
    (∀ (fields : List (String × Json)) (m : List (String × String))
      (rest : Option (List (String × String))),
      strMapEntries (normObj fields) = none →
      unmarshalWrapped (Json.obj fields) = some none →
      unmarshalAllMids (Json.obj fields) = some (some m, rest) →
      lookupA m "BTC" = some "65000.12345678" →
      getPrice "BTC" 200 (Json.obj fields) = Except.ok targetPrice) ∧
    (∀ (fields : List (String × Json)) (dm : List (String × String)),
      strMapEntries (normObj fields) = none →
      unmarshalWrapped (Json.obj fields) = some none →
      unmarshalAllMids (Json.obj fields) = some (none, some dm) →
      lookupA dm "BTC" = some "65000.12345678" →
      getPrice "BTC" 200 (Json.obj fields) = Except.ok targetPrice) ∧
    getPrice "BTC" 200 (Json.obj
        [("data", Json.obj [("mids", Json.obj [("BTC", Json.str "2")])]),
         ("mids", Json.obj [("BTC", Json.str "3")])]) = Except.ok (2 / 1 : ℚ) := by
  refine ⟨?_, ?_, ?_, ?_, by rfl⟩
  · intro fields m h1 h2
    have hpos : 0 < m.length := by
      cases m with
      | nil => simp [lookupA] at h2
      | cons a t => simp
    simp [getPrice, interpretBody, formatLookup, step1, asStringMap, h1,
      if_pos hpos, tryMap_found _ _ _ h2, parse_target]
  · intro fields m h1 h2 h3
    simp [getPrice, interpretBody, formatLookup, step1, step2, asStringMap,
      h1, h2, tryMap_found _ _ _ h3, parse_target]
  · intro fields m rest h1 h2 h3 h4
    simp [getPrice, interpretBody, formatLookup, step1, step2, step3,
      asStringMap, h1, h2, h3, tryMap_found _ _ _ h4, parse_target]
  · intro fields dm h1 h2 h3 h4
    simp [getPrice, interpretBody, formatLookup, step1, step2, step3,
      asStringMap, h1, h2, h3, tryMap_found _ _ _ h4, parse_target]

/-- Witness for C1: the flat-map conjunct applied to the concrete payload
of the spec's testable property. -/
theorem getPrice_supported_shapes_C1_witness :
    getPrice "BTC" 200 (Json.obj [("BTC", Json.str "65000.12345678")]) =
      Except.ok targetPrice :=
  getPrice_supported_shapes_C1.1 [("BTC", Json.str "65000.12345678")]
    [("BTC", "65000.12345678")] (by rfl) (by rfl)

/-- C2: symbol lookup within each candidate mapping first tries an
exact-case key match and only on a miss scans all keys case-insensitively;
in particular a flat-map payload with lowercase key `btc` is found when
requesting `BTC` (third conjunct), and an exact-case key wins over an
earlier case-insensitive candidate (fourth conjunct). -/
theorem findSym_exact_then_ci_C2 :
    (∀ (m : List (String × String)) (coin v : String),
      lookupA m coin = some v → findSym coin m = some v) ∧
    (∀ (m : List (String × String)) (coin : String),
      lookupA m coin = none → findSym coin m = lookupCI coin m) ∧
    getPrice "BTC" 200 (Json.obj [("btc", Json.str "65000.12345678")]) =
      Except.ok targetPrice ∧
    getPrice "BTC" 200 (Json.obj [("btc", Json.str "2"), ("BTC", Json.str "1")]) =
      Except.ok (1 / 1 : ℚ) := by
  refine ⟨?_, ?_, by rfl, by rfl⟩
  · intro m coin v h
    simp [findSym, h]
  · intro m coin h
    simp [findSym, h]

/-- Witness for C2: the exact-match conjunct at a concrete mapping. -/
theorem findSym_exact_then_ci_C2_witness :
    findSym "BTC" [("BTC", "9")] = some "9" :=
  findSym_exact_then_ci_C2.1 [("BTC", "9")] "BTC" "9" (by rfl)

set_option maxRecDepth 8192 in
/-- Counterexample for C3: for the wrapped payload
`\x7b"data": \x7b"mids": \x7b"ETH": "3500.5"\x7d\x7d\x7d` the symbol `ETH`
is present (the adapter itself finds it, first conjunct), yet requesting the
absent `BTC` yields a diagnostic listing only the top-level key `data` —
the string `ETH` does not occur in the message at all (third conjunct). -/
theorem getPrice_diagnostic_C3_cex :
    getPrice "ETH" 200 (Json.obj
        [("data", Json.obj [("mids", Json.obj [("ETH", Json.str "3500.5")])])]) =
      Except.ok (35005 / 10 : ℚ) ∧
    getPrice "BTC" 200 (Json.obj
        [("data", Json.obj [("mids", Json.obj [("ETH", Json.str "3500.5")])])]) =
      Except.error
        "coin BTC not found in response. Available coins in response: [data]" ∧
    ¬ List.IsInfix "ETH".toList
      "coin BTC not found in response. Available coins in response: [data]".toList := by
  refine ⟨by rfl, by rfl, by decide⟩

/-- C3 (amended): for every JSON-object payload on which every supported
shape interpretation misses the requested symbol, `GetPrice` returns an
error enumerating the payload's top-level keys — which are exactly the
symbols present for a flat-map payload (second conjunct), but are the
wrapper field names for nested shapes. -/
theorem getPrice_diagnostic_keys_C3 :
    (∀ (coin : String) (fields : List (String × Json)),
      formatLookup coin (Json.obj fields) = none →
      getPrice coin 200 (Json.obj fields) =
        Except.error ("coin " ++ coin ++
          " not found in response. Available coins in response: [" ++
          String.intercalate " " ((normObj fields).map Prod.fst) ++ "]")) ∧
    getPrice "BTC" 200 (Json.obj [("ETH", Json.str "3500.5")]) =
      Except.error
        "coin BTC not found in response. Available coins in response: [ETH]" := by
  refine ⟨?_, by rfl⟩
  intro coin fields h
  simp [getPrice, interpretBody, h, diagnose, notFoundMsg]

/-- Witness for C3: the amended key-enumeration conjunct at the concrete
flat payload containing only `ETH`. -/
theorem getPrice_diagnostic_keys_C3_witness :
    getPrice "BTC" 200 (Json.obj [("ETH", Json.str "3500.5")]) =
      Except.error ("coin " ++ "BTC" ++
        " not found in response. Available coins in response: [" ++
        String.intercalate " "
          ((normObj [("ETH", Json.str "3500.5")]).map Prod.fst) ++ "]") :=
  getPrice_diagnostic_keys_C3.1 "BTC" [("ETH", Json.str "3500.5")] (by rfl)

set_option maxRecDepth 16384 in
/-- Counterexample for C4: for a 500-status response whose body renders to
602 characters, the error message embeds the rendered body in full — the
copy is complete, exceeding even the 500-character bound the code itself
uses for its own truncated diagnostics, so no truncation takes place. -/
theorem getPrice_non200_C4_cex :
    getPrice "BTC" 500 (Json.str (String.mk (List.replicate 600 'a'))) =
      Except.error ("API returned status 500: " ++
        (Json.str (String.mk (List.replicate 600 'a'))).render) ∧
    ((Json.str (String.mk (List.replicate 600 'a'))).render).length = 602 ∧
    500 < ((Json.str (String.mk (List.replicate 600 'a'))).render).length := by
  refine ⟨by rfl, by decide, by decide⟩

/-- C4 (amended): for every response with a status other than 200 (hence for
every non-2xx status), `GetPrice` returns an error immediately — the result
is this fixed error shape whatever the payload contains, so no payload
interpretation and no retry happens — and the error carries the status code
and the full, untruncated response body. -/
theorem getPrice_non200_error_C4 (coin : String) (status : Nat) (body : Json)
    (h : status ≠ 200) :
    getPrice coin status body =
      Except.error ("API returned status " ++ toString status ++ ": " ++
        body.render) := by
  simp [getPrice, h]

/-- Witness for C4: the amended theorem at a concrete 404 response. -/
theorem getPrice_non200_error_C4_witness :
    getPrice "BTC" 404 (Json.str "oops") =
      Except.error ("API returned status " ++ toString 404 ++ ": " ++
        (Json.str "oops").render) :=
  getPrice_non200_error_C4 "BTC" 404 (Json.str "oops") (by decide)

/-- C5: for every store state and non-empty symbol the query service answers
200 with exactly the rows whose coin matches exactly, whose `created_at` is
at or after `now - 24h` and whose `deleted_at` is null (first conjunct
unfolds the row predicate), ordered by `created_at` descending, and an empty
match is a 200 with an empty list and zero count, not an error. -/
theorem getPriceComparison_window_C5 (now : Int) (store : List CoinPrice)
    (coin : String) (h : coin ≠ "") :
    (∀ r : CoinPrice, inQueryWindow now coin r = true ↔
      (r.coin = coin ∧ now - 24 * 3600 ≤ r.createdAt ∧ r.deletedAt = none)) ∧
    ∃ body : PriceComparisonResponse,
      (getPriceComparison now store coin).1 = HandlerStatus.ok body ∧
      body.coin = coin ∧
      List.Perm body.prices
        ((store.filter (inQueryWindow now coin)).map toPriceResponse) ∧
      body.prices.Pairwise (fun a b => b.createdAt ≤ a.createdAt) ∧
      body.count = (store.filter (inQueryWindow now coin)).length ∧
      (store.filter (inQueryWindow now coin) = [] →
        body.prices = [] ∧ body.count = 0) := by
  constructor
  · intro r
    cases hd : r.deletedAt <;>
      simp [inQueryWindow, windowSeconds, hd, and_assoc]
  refine ⟨⟨coin,
      (sortByCreatedDesc (store.filter (inQueryWindow now coin))).map toPriceResponse,
      (store.filter (inQueryWindow now coin)).length⟩,
    by simp [getPriceComparison, h], rfl, ?_, ?_, rfl, ?_⟩
  · exact (sortByCreatedDesc_perm _).map toPriceResponse
  · exact List.pairwise_map.mpr ((sortByCreatedDesc_pairwise _).imp (fun hab => hab))
  · intro he
    simp [he, sortByCreatedDesc]

/-- Witness for C5: the theorem at the empty store and symbol `BTC`. -/
theorem getPriceComparison_window_C5_witness :
    (∀ r : CoinPrice, inQueryWindow 0 "BTC" r = true ↔
      (r.coin = "BTC" ∧ (0 : Int) - 24 * 3600 ≤ r.createdAt ∧ r.deletedAt = none)) ∧
    ∃ body : PriceComparisonResponse,
      (getPriceComparison 0 [] "BTC").1 = HandlerStatus.ok body ∧
      body.coin = "BTC" ∧
      List.Perm body.prices
        ((List.filter (inQueryWindow 0 "BTC") []).map toPriceResponse) ∧
      body.prices.Pairwise (fun a b => b.createdAt ≤ a.createdAt) ∧
      body.count = (List.filter (inQueryWindow 0 "BTC") []).length ∧
      (List.filter (inQueryWindow 0 "BTC") [] = [] →
        body.prices = [] ∧ body.count = 0) :=
  getPriceComparison_window_C5 0 [] "BTC" (by decide)

/-- C9: an empty symbol parameter is rejected with 400 and the descriptive
message before any query runs — the handler executes zero store queries on
this path (second component), for every store state. -/
theorem getPriceComparison_empty_symbol_C9 (now : Int) (store : List CoinPrice) :
    getPriceComparison now store "" =
      (HandlerStatus.badRequest "coin symbol is required", 0) := by
  rfl

/-- C10 (implicit): in every 200 response of the price endpoint, the `count`
field equals the number of entries in the `prices` list, since the `Count`
query and the ordered `Find` query evaluate the same predicate over the same
store snapshot. -/
theorem getPriceComparison_count_C10 (now : Int) (store : List CoinPrice)
    (coin : String) (body : PriceComparisonResponse)
    (h : (getPriceComparison now store coin).1 = HandlerStatus.ok body) :
    body.count = body.prices.length := by
  by_cases hc : coin = ""
  · simp [getPriceComparison, hc] at h
  · simp only [getPriceComparison, if_neg hc] at h
    cases h
    simp [List.length_map, (sortByCreatedDesc_perm _).length_eq]

/-- Witness for C10: the theorem at a one-row store whose single row is in
the window. -/
theorem getPriceComparison_count_C10_witness :
    (PriceComparisonResponse.mk "BTC" [PriceResponse.mk "BTC" 1 0] 1).count =
      (PriceComparisonResponse.mk "BTC" [PriceResponse.mk "BTC" 1 0] 1).prices.length :=
  getPriceComparison_count_C10 0 [CoinPrice.mk "BTC" 1 0 none] "BTC" _ (by rfl)

theorem cleanupMark_not_eligible (now : Int) (x : CoinPrice) :
    eligibleForCleanup now (cleanupMark now x) = false := by
  by_cases he : eligibleForCleanup now x = true
  · rw [cleanupMark, if_pos he]
    simp [eligibleForCleanup]
  · simp only [Bool.not_eq_true] at he
    rw [cleanupMark, if_neg (by simp [he])]
    exact he

theorem cleanupMark_idem (now : Int) (x : CoinPrice) :
    cleanupMark now (cleanupMark now x) = cleanupMark now x := by
  have h := cleanupMark_not_eligible now x
  rw [show cleanupMark now (cleanupMark now x) =
      (if eligibleForCleanup now (cleanupMark now x) then
        { cleanupMark now x with deletedAt := some now }
      else cleanupMark now x) from rfl, h]
  simp

theorem cleanupMark_map_idem (now : Int) (l : List CoinPrice) :
    (l.map (cleanupMark now)).map (cleanupMark now) = l.map (cleanupMark now) := by
  induction l with
  | nil => rfl
  | cons x xs ih =>
    simp only [List.map_cons, ih, List.cons.injEq, and_true]
    exact cleanupMark_idem now x

theorem cleanupMark_countP_zero (now : Int) (l : List CoinPrice) :
    (l.map (cleanupMark now)).countP (eligibleForCleanup now) = 0 := by
  induction l with
  | nil => rfl
  | cons x xs ih =>
    simp [List.countP_cons, ih, cleanupMark_not_eligible now x]

/-- C6: each retention cycle soft-deletes (stamps the deletion marker of,
without removing) exactly the rows whose `created_at` is strictly before
`now - 2 days` and that are not already soft-deleted (first conjunct
unfolds the eligibility predicate); the reported count is the number of
such rows, and every other row is returned unchanged. -/
theorem cleanup_soft_delete_C6 (now : Int) (store : List CoinPrice) :
    (∀ r : CoinPrice, eligibleForCleanup now r = true ↔
      (r.deletedAt = none ∧ r.createdAt < now - 2 * 86400)) ∧
    (cleanup now store).2 = store.countP (eligibleForCleanup now) ∧
    List.Forall₂ (fun old new : CoinPrice =>
        (eligibleForCleanup now old = true →
          new = { old with deletedAt := some now }) ∧
        (eligibleForCleanup now old = false → new = old))
      store (cleanup now store).1 := by
  refine ⟨?_, rfl, ?_⟩
  · intro r
    cases hd : r.deletedAt <;> simp [eligibleForCleanup, retentionCutoff, hd]
  · have : (cleanup now store).1 = store.map (cleanupMark now) := rfl
    rw [this, List.forall₂_map_right_iff, List.forall₂_same]
    intro x _
    constructor
    · intro he
      simp [cleanupMark, he]
    · intro he
      simp [cleanupMark, he]

/-- Witness for C6: the reported count at a concrete one-row store. -/
theorem cleanup_soft_delete_C6_witness :
    (cleanup 172801 [CoinPrice.mk "BTC" 1 0 none]).2 =
      List.countP (eligibleForCleanup 172801) [CoinPrice.mk "BTC" 1 0 none] :=
  (cleanup_soft_delete_C6 172801 [CoinPrice.mk "BTC" 1 0 none]).2.1

/-- C7: the retention cycle is idempotent — running the cleanup again on its
own output (no writes in between, same clock reading) changes no row and
reports zero additional deletions. -/
theorem cleanup_idempotent_C7 (now : Int) (store : List CoinPrice) :
    cleanup now (cleanup now store).1 = ((cleanup now store).1, 0) := by
  unfold cleanup
  exact Prod.ext (cleanupMark_map_idem now store) (cleanupMark_countP_zero now store)

theorem fetchPrices_eq (fetchF : String → Except String ℚ)
    (writeOk : String → ℚ → Bool) (now : Int) (coins : List String)
    (store : List CoinPrice) :
    fetchPrices fetchF writeOk now coins store =
      store ++ coins.filterMap (fun c =>
        match fetchF c with
        | Except.ok p => if writeOk c p then some (fetchRow c p now) else none
        | Except.error _ => none) := by
  induction coins generalizing store with
  | nil => simp [fetchPrices]
  | cons c cs ih =>
    cases hfc : fetchF c with
    | error e => simp [fetchPrices, hfc, List.filterMap_cons, ih]
    | ok p =>
      by_cases hw : writeOk c p = true
      · simp [fetchPrices, hfc, hw, List.filterMap_cons, ih, List.append_assoc]
      · simp only [Bool.not_eq_true] at hw
        simp [fetchPrices, hfc, hw, List.filterMap_cons, ih]

/-- C8: every fetch cycle walks the symbol list sequentially; a per-symbol
failure (adapter error, or `db.Create` refusing the write) skips only that
symbol while all remaining symbols are still processed, and each success
appends exactly one observation row carrying the fetched price and the
insert-time timestamp (first conjunct: the cycle equals the old store plus
one row per successful symbol in list order; second: the row count grows by
exactly the number of successes; third: every appended row holds its
symbol's fetched price, the insert timestamp, and no deletion marker). -/
theorem fetchPrices_per_symbol_C8 (fetchF : String → Except String ℚ)
    (writeOk : String → ℚ → Bool) (now : Int) (coins : List String)
    (store : List CoinPrice) :
    fetchPrices fetchF writeOk now coins store =
      store ++ coins.filterMap (fun c =>
        match fetchF c with
        | Except.ok p => if writeOk c p then some (fetchRow c p now) else none
        | Except.error _ => none) ∧
    (fetchPrices fetchF writeOk now coins store).length =
      store.length + coins.countP (fun c =>
        match fetchF c with
        | Except.ok p => writeOk c p
        | Except.error _ => false) ∧
    ∀ r ∈ coins.filterMap (fun c =>
        match fetchF c with
        | Except.ok p => if writeOk c p then some (fetchRow c p now) else none
        | Except.error _ => none),
      fetchF r.coin = Except.ok r.price ∧ r.createdAt = now ∧
        r.deletedAt = none := by
  refine ⟨fetchPrices_eq fetchF writeOk now coins store, ?_, ?_⟩
  · rw [fetchPrices_eq, List.length_append, length_filterMap_countP]
    congr 1
    apply List.countP_congr
    intro c _
    cases hfc : fetchF c with
    | error e => simp
    | ok p => cases hw : writeOk c p <;> simp [hw]
  · intro r hr
    obtain ⟨c, _, hgc⟩ := List.mem_filterMap.mp hr
    cases hfc : fetchF c with
    | error e => simp [hfc] at hgc
    | ok p =>
      rw [hfc] at hgc
      by_cases hw : writeOk c p = true
      · simp only [hw, if_true] at hgc
        cases Option.some.injEq .. ▸ hgc
        exact ⟨hfc, rfl, rfl⟩
      · simp [hw] at hgc

/-- Witness for C8: a two-symbol cycle in which the second symbol's fetch
fails — the failure is skipped and the successful symbol contributes its
single row. -/
theorem fetchPrices_per_symbol_C8_witness :
    fetchPrices (fun c => if c == "BTC" then Except.ok (1 : ℚ)
        else Except.error "boom")
      (fun _ _ => true) 5 ["BTC", "ETH"] [] = [fetchRow "BTC" 1 5] :=
  ((fetchPrices_per_symbol_C8 (fun c => if c == "BTC" then Except.ok (1 : ℚ)
      else Except.error "boom")
    (fun _ _ => true) 5 ["BTC", "ETH"] []).1).trans (by rfl)
